import Mathlib

/-!
Verification development for the CP-Dojo scaffolding tool
(source: cp-dojo-tool.py).

Strings are modelled as `List Char` (Python `str`).  The per-platform
URL rules of `CPDojoConfig.PLATFORM_REGEX` are embedded as values of a
small regular-expression type `RE` together with a backtracking matcher
`mrun` whose result list is ordered by Python's backtracking priority
(alternation left to right, quantifiers greedy), and a leftmost-search
`research` mirroring `re.search`.  File-system and database effects of
`CPDojoTool.run` are embedded as explicit state passing over a
`WorldState`; wall-clock readings and the editor subprocess outcome are
inputs of the model.
-/

/-- Convert a Lean string literal to the `List Char` representation used
throughout the development. -/
def chars (s : String) : List Char := s.data

/-- Association-list lookup, modelling Python `dict` lookup for the
string-keyed constant dictionaries of the source. -/
def lookupAssoc {α : Type} : List (List Char × α) → List Char → Option α
  | [], _ => none
  | (k2, v) :: r, k => if k2 = k then some v else lookupAssoc r k

/-- Python `sep.join(parts)`. -/
def joinStr (sep : List Char) : List (List Char) → List Char
  | [] => []
  | [x] => x
  | x :: y :: r => x ++ sep ++ joinStr sep (y :: r)

/-- Python `s.split(sep)` with an explicit one-character separator:
splits at every occurrence, keeping empty pieces, and always returns a
non-empty list. -/
def pySplit (sep : Char) : List Char → List (List Char)
  | [] => [[]]
  | c :: t =>
    if c = sep then [] :: pySplit sep t
    else
      match pySplit sep t with
      | h :: r => (c :: h) :: r
      | [] => [[c]]

/-- Python truthiness fallback `value or default` for optional strings:
`None` and the empty string both fall back to the default. -/
def orDefault (v : Option (List Char)) (d : List Char) : List Char :=
  match v with
  | some s => if s.isEmpty then d else s
  | none => d

/-- Python `str.lower()` (ASCII range, which covers every string the
tool lower-cases: platform names and extracted contest codes). -/
def pyLower (s : List Char) : List Char := s.map Char.toLower

/-- `ProblemInfo` dataclass.  `created_date` holds the already formatted
`strftime('%Y-%m-%d %H:%M:%S')` rendering of the creation instant, the
only use the source makes of the field. -/
structure ProblemInfo where
  platform : List Char
  contest_code : List Char
  problem_code : List Char
  problem_link : List Char
  difficulty : Option (List Char) := none
  tags : Option (List (List Char)) := none
  created_date : Option (List Char) := none
deriving DecidableEq

/-- `CPDojoConfig.PLATFORMS`. -/
def PLATFORMS : List (List Char) :=
  [chars "AtCoder", chars "CodeChef", chars "Codeforces", chars "Leetcode"]

/-- `CPDojoConfig.LANGUAGES`: registered language file extensions. -/
def LANGUAGES : List (List Char × List Char) :=
  [(chars "C++", chars ".cpp"),
   (chars "Python", chars ".py"),
   (chars "Java", chars ".java"),
   (chars "JavaScript", chars ".js"),
   (chars "Go", chars ".go"),
   (chars "Kotlin", chars ".kt"),
   (chars "Rust", chars ".rs")]

/-- Exceptions raised by the embedded code paths: `ValueError` for an
unsupported platform (line 211), `ValueError` for a URL the platform
pattern does not match (line 215, the spec's `ExtractionError`),
`ValueError` for an unknown file kind (line 264, the spec's
`InvalidFileKindError`), `KeyError` from `LANGUAGES[language]`, and
`FileNotFoundError` from `subprocess.run` when the editor command is
absent. -/
inductive PyErr where
  | unsupportedPlatform (platform : List Char)
  | extractionError (link : List Char)
  | invalidFileKind (kind : List Char)
  | keyError (key : List Char)
  | fileNotFound
deriving DecidableEq

/-! ## Regular expressions

The four patterns of `PLATFORM_REGEX` use only literals, one-or-more
repetitions of a character class, ordered alternation, greedy option and
capturing groups, so the type `RE` below covers them exactly. -/

/-- Regular expressions as used by the four patterns of
`CPDojoConfig.PLATFORM_REGEX`. -/
inductive RE where
  | lit : List Char → RE
  | cls : (Char → Bool) → RE
  | alt : RE → RE → RE
  | opt : RE → RE
  | cat : RE → RE → RE
  | grp : Nat → RE → RE

/-- Captured groups of a match: group number paired with captured text. -/
abbrev Caps : Type := List (Nat × List Char)

/-- Match a literal at the front of the input, returning the rest. -/
def litMatch : List Char → List Char → Option (List Char)
  | [], s => some s
  | _ :: _, [] => none
  | a :: l, b :: s => if a = b then litMatch l s else none

/-- All ways a regex can match a prefix of the input, each as (captured
groups, remaining input), ordered by Python's backtracking priority:
alternation tries the left branch first, `cls` (a `+`-repetition of a
character class) and `opt` are greedy. -/
def mrun : RE → List Char → List (Caps × List Char)
  | .lit l, s =>
    match litMatch l s with
    | some rest => [([], rest)]
    | none => []
  | .cls c, s =>
    (List.range (s.takeWhile c).length).map
      (fun i => ([], s.drop ((s.takeWhile c).length - i)))
  | .alt r1 r2, s => mrun r1 s ++ mrun r2 s
  | .opt r, s => mrun r s ++ [([], s)]
  | .cat r1 r2, s =>
    (mrun r1 s).flatMap
      (fun pr => (mrun r2 pr.2).map (fun qr => (pr.1 ++ qr.1, qr.2)))
  | .grp n r, s =>
    (mrun r s).map
      (fun pr => ((n, s.take (s.length - pr.2.length)) :: pr.1, pr.2))

/-- `re.search`: try the pattern at each start position from the left;
at the first position where it matches, return the groups of the
highest-priority match. -/
def research (re : RE) : List Char → Option Caps
  | [] =>
    match mrun re [] with
    | r :: _ => some r.1
    | [] => none
  | c :: t =>
    match mrun re (c :: t) with
    | r :: _ => some r.1
    | [] => research re t

/-- `match.group(n)`: the text captured by group `n`, if the group
participated in the match. -/
def getGroup : Caps → Nat → Option (List Char)
  | [], _ => none
  | g :: r, n => if g.1 = n then some g.2 else getGroup r n

/-! ## The four platform rules -/

/-- Character class `[^/]`. -/
def nonSlash (c : Char) : Bool := !(c == '/')

/-- Character class `[A-Za-z0-9]`. -/
def cfAlnum (c : Char) : Bool :=
  ('A' ≤ c && c ≤ 'Z') || ('a' ≤ c && c ≤ 'z') || ('0' ≤ c && c ≤ '9')

/-- Character class `[a-zA-Z0-9-]` (Leetcode slug characters). -/
def slugChar (c : Char) : Bool := cfAlnum c || c == '-'

/-- Character class `[A-Z0-9]` (CodeChef problem codes). -/
def ucAlnum (c : Char) : Bool :=
  ('A' ≤ c && c ≤ 'Z') || ('0' ≤ c && c ≤ '9')

/-- Pattern for Codeforces:
`codeforces\.com/(?:contest|group|problemset/problem)/([^/]+)/(?:problem/)?([A-Za-z0-9]+)`. -/
def codeforcesRE : RE :=
  .cat (.lit (chars "codeforces.com/"))
    (.cat (.alt (.lit (chars "contest"))
            (.alt (.lit (chars "group")) (.lit (chars "problemset/problem"))))
      (.cat (.lit (chars "/"))
        (.cat (.grp 1 (.cls nonSlash))
          (.cat (.lit (chars "/"))
            (.cat (.opt (.lit (chars "problem/")))
              (.grp 2 (.cls cfAlnum)))))))

/-- Pattern for Leetcode:
`leetcode\.com/(?:problems|contest)/([a-zA-Z0-9-]+)(?:/problems/([a-zA-Z0-9-]+))?`. -/
def leetcodeRE : RE :=
  .cat (.lit (chars "leetcode.com/"))
    (.cat (.alt (.lit (chars "problems")) (.lit (chars "contest")))
      (.cat (.lit (chars "/"))
        (.cat (.grp 1 (.cls slugChar))
          (.opt (.cat (.lit (chars "/problems/")) (.grp 2 (.cls slugChar)))))))

/-- Pattern for CodeChef:
`codechef\.com/(?:[^/]+/)?(?:problems/)?([A-Z0-9]+)`. -/
def codechefRE : RE :=
  .cat (.lit (chars "codechef.com/"))
    (.cat (.opt (.cat (.cls nonSlash) (.lit (chars "/"))))
      (.cat (.opt (.lit (chars "problems/")))
        (.grp 1 (.cls ucAlnum))))

/-- Pattern for AtCoder:
`atcoder\.jp/contests/([^/]+)/tasks/([^/]+)`. -/
def atcoderRE : RE :=
  .cat (.lit (chars "atcoder.jp/contests/"))
    (.cat (.grp 1 (.cls nonSlash))
      (.cat (.lit (chars "/tasks/"))
        (.grp 2 (.cls nonSlash))))

/-- Codeforces rule: `re.search` plus the projection
`lambda match: (match.group(1), match.group(2))`. -/
def codeforcesExtract (link : List Char) : Option (List Char × List Char) :=
  match research codeforcesRE link with
  | none => none
  | some caps =>
    match getGroup caps 1, getGroup caps 2 with
    | some g1, some g2 => some (g1, g2)
    | _, _ => none

/-- Leetcode rule: `re.search` plus the projection
`lambda match: ("leetcode", match.group(2) if match.group(2) else match.group(1))`.
The truthiness test on `match.group(2)` also treats an empty capture as
absent. -/
def leetcodeExtract (link : List Char) : Option (List Char × List Char) :=
  match research leetcodeRE link with
  | none => none
  | some caps =>
    match getGroup caps 1 with
    | none => none
    | some g1 =>
      some (chars "leetcode",
        match getGroup caps 2 with
        | some g2 => if g2.isEmpty then g1 else g2
        | none => g1)

/-- CodeChef rule: `re.search` plus the projection
`lambda match: ("codechef", match.group(1))`. -/
def codechefExtract (link : List Char) : Option (List Char × List Char) :=
  match research codechefRE link with
  | none => none
  | some caps =>
    match getGroup caps 1 with
    | some g1 => some (chars "codechef", g1)
    | none => none

/-- AtCoder rule: `re.search` plus the projection
`lambda match: (match.group(1), match.group(2).split('_')[-1])`. -/
def atcoderExtract (link : List Char) : Option (List Char × List Char) :=
  match research atcoderRE link with
  | none => none
  | some caps =>
    match getGroup caps 1, getGroup caps 2 with
    | some g1, some g2 => some (g1, (pySplit '_' g2).getLastD [])
    | _, _ => none

/-- `CPDojoConfig.PLATFORM_REGEX.get(platform)`: the matching rule
registered for a platform name, if any. -/
def platformExtractFn (platform : List Char) :
    Option (List Char → Option (List Char × List Char)) :=
  if platform = chars "Codeforces" then some codeforcesExtract
  else if platform = chars "Leetcode" then some leetcodeExtract
  else if platform = chars "CodeChef" then some codechefExtract
  else if platform = chars "AtCoder" then some atcoderExtract
  else none

/-- `CPDojoTool.extract_codes_from_link` (lines 208-217): unsupported
platform and non-matching URL each raise a `ValueError`, modelled as the
two distinct error constructors. -/
def extract_codes_from_link (link platform : List Char) :
    Except PyErr (List Char × List Char) :=
  match platformExtractFn platform with
  | none => .error (.unsupportedPlatform platform)
  | some f =>
    match f link with
    | none => .error (.extractionError link)
    | some r => .ok r

/-! ## Templates (`CPDojoTemplate`) -/

/-- The tag display used by the metadata comment, the daily log and the
thought template: `", ".join(tags) if tags else "None"` (Python
truthiness: `None` and the empty list both display as "None"). -/
def tagsDisplay (tags : Option (List (List Char))) : List Char :=
  match tags with
  | some ts => if ts.isEmpty then chars "None" else joinStr (chars ", ") ts
  | none => chars "None"

/-- `comment_styles` dictionary of `generate_metadata_comment`:
(start, multi_start, multi_end) per language. -/
def comment_styles : List (List Char × (List Char × List Char × List Char)) :=
  [(chars "Python", (chars "# ", chars "\x27\x27\x27", chars "\x27\x27\x27")),
   (chars "C++", (chars "// ", chars "/*", chars "*/")),
   (chars "Java", (chars "// ", chars "/*", chars "*/")),
   (chars "JavaScript", (chars "// ", chars "/*", chars "*/")),
   (chars "Go", (chars "// ", chars "/*", chars "*/")),
   (chars "Kotlin", (chars "// ", chars "/*", chars "*/")),
   (chars "Rust", (chars "// ", chars "/*", chars "*/"))]

/-- `CPDojoTemplate.generate_metadata_comment` (lines 57-111).  `now` is
the `datetime.now().strftime('%Y-%m-%d %H:%M:%S')` reading taken when
`created_date` is unset. -/
def generate_metadata_comment (p : ProblemInfo) (language : List Char)
    (now : List Char) : List Char :=
  let tags := tagsDisplay p.tags
  let created_date :=
    match p.created_date with
    | some d => d
    | none => now
  let style :=
    (lookupAssoc comment_styles language).getD
      (chars "# ", chars "\x27\x27\x27", chars "\x27\x27\x27")
  style.2.1 ++ chars "\nProblem Code: " ++ p.problem_code
    ++ chars "\nPlatform: " ++ p.platform
    ++ chars "\nContest Code: " ++ p.contest_code
    ++ chars "\nLink: " ++ p.problem_link
    ++ chars "\nDifficulty: " ++ orDefault p.difficulty (chars "Unknown")
    ++ chars "\nTags: " ++ tags
    ++ chars "\nCreated: " ++ created_date
    ++ chars "\n" ++ style.2.2 ++ chars "\n"

/-- The Python skeleton of the `templates` dictionary (lines 117-130). -/
def pythonSkeleton (metadata : List Char) : List Char :=
  metadata ++ chars "\n\ndef solve():\n    # TODO: Implement your solution here\n    pass\n\ndef main():\n    # Read input\n    T = int(input())  # Number of test cases\n    for _ in range(T):\n        solve()\n\nif __name__ == \"__main__\":\n    main()"

/-- The C++ skeleton of the `templates` dictionary (lines 132-150). -/
def cppSkeleton (metadata : List Char) : List Char :=
  metadata ++ chars "\n#include <bits/stdc++.h>\nusing namespace std;\n\nvoid solve() \x7b\n    // TODO: Implement your solution here\n\x7d\n\nint main() \x7b\n    ios::sync_with_stdio(0);\n    cin.tie(0);\n    \n    int T;\n    cin >> T;\n    while(T--) \x7b\n        solve();\n    \x7d\n    return 0;\n\x7d"

/-- `CPDojoTemplate.get_language_template` (lines 113-153): the
`templates` dictionary registers skeletons for Python and C++ only;
`templates.get(language, "")` falls back to the empty string for every
other language. -/
def get_language_template (language : List Char) (p : ProblemInfo)
    (now : List Char) : List Char :=
  let metadata := generate_metadata_comment p language now
  if language = chars "Python" then pythonSkeleton metadata
  else if language = chars "C++" then cppSkeleton metadata
  else []

/-- `CPDojoTool._get_thought_template` (lines 311-336). -/
def thought_template (p : ProblemInfo) : List Char :=
  chars "# " ++ p.platform ++ chars " - Problem " ++ p.problem_code
    ++ chars "\n\n## Problem Link\n" ++ p.problem_link
    ++ chars "\n\n## Initial Thoughts\n- [ ] First approach\n- [ ] Edge cases to consider\n- [ ] Possible optimizations\n\n## Approach\n1. Describe your approach here\n\n## Complexity Analysis\n- Time Complexity: \n- Space Complexity: \n\n## Key Learnings\n- What did you learn from this problem?\n- Any specific techniques or patterns used?\n\n## Tags\n"
    ++ tagsDisplay p.tags ++ chars "\n"

/-- The block `CPDojoTool.update_daily_log` appends (lines 219-236);
`date_str` is the `strftime("%Y-%m-%d|%H:%M:%S")` reading. -/
def daily_log_entry (p : ProblemInfo) (date_str : List Char) : List Char :=
  chars "### " ++ date_str
    ++ chars "\n- **Platform**: " ++ p.platform
    ++ chars "\n- **Contest Code**: " ++ p.contest_code
    ++ chars "\n- **Problem Code**: " ++ p.problem_code
    ++ chars "\n- [Problem Link](" ++ p.problem_link ++ chars ")"
    ++ chars "\n- **Tags**: " ++ tagsDisplay p.tags
    ++ chars "\n- **Difficulty**: " ++ orDefault p.difficulty (chars "Not specified")
    ++ chars "\n\n"

/-! ## Filename generation and artifact writing -/

/-- `CPDojoTool.generate_filename` (lines 250-264).  The `solution`
branch indexes `CPDojoConfig.LANGUAGES[language]`, a `KeyError` for an
unregistered language; an unknown file type raises a `ValueError`
(the spec's `InvalidFileKindError`). -/
def generate_filename (p : ProblemInfo) (language file_type : List Char) :
    Except PyErr (List Char) :=
  let platform_id := pyLower p.platform
  let contest_id := pyLower p.contest_code
  let problem_id := p.problem_code
  if file_type = chars "solution" then
    match lookupAssoc LANGUAGES language with
    | some ext =>
      .ok (platform_id ++ chars "_" ++ contest_id ++ chars "_" ++ problem_id ++ ext)
    | none => .error (.keyError language)
  else if file_type = chars "thought" then
    .ok (platform_id ++ chars "_" ++ contest_id ++ chars "_" ++ problem_id ++ chars ".md")
  else if file_type = chars "link" then
    .ok (platform_id ++ chars "_" ++ contest_id ++ chars "_" ++ problem_id ++ chars ".txt")
  else .error (.invalidFileKind file_type)

/-- `CPDojoTool.create_problem_files` (lines 266-284) as the ordered
list of (path, content) writes it performs: solution file, then link
file (both in the solutions directory), then thought-process file. -/
def create_problem_files (p : ProblemInfo) (language : List Char)
    (solutions_dir thought_dir : List Char) (now : List Char) :
    Except PyErr (List (List Char × List Char)) :=
  match generate_filename p language (chars "solution") with
  | .error e => .error e
  | .ok solution_filename =>
    match generate_filename p language (chars "link") with
    | .error e => .error e
    | .ok link_filename =>
      match generate_filename p language (chars "thought") with
      | .error e => .error e
      | .ok thought_filename =>
        .ok [(solutions_dir ++ chars "/" ++ solution_filename,
              get_language_template language p now),
             (solutions_dir ++ chars "/" ++ link_filename, p.problem_link),
             (thought_dir ++ chars "/" ++ thought_filename, thought_template p)]

/-! ## Ledger and editor launch -/

/-- Escape a JSON string character (sufficient for tag strings without
control characters, the scope in which the tool calls `json.dumps`). -/
def jsonEscape (s : List Char) : List Char :=
  s.flatMap (fun c => if c = '"' ∨ c = '\\' then ['\\', c] else [c])

/-- `json.dumps(problem_info.tags)`: `None` serialises to `null`, a
list of strings to a bracketed comma-separated list of quoted strings. -/
def json_dumps_tags : Option (List (List Char)) → List Char
  | none => chars "null"
  | some ts =>
    chars "[" ++ joinStr (chars ", ") (ts.map (fun t => chars "\"" ++ jsonEscape t ++ chars "\"")) ++ chars "]"

/-- A row of the `problems` table (schema at lines 175-187). -/
structure DbRow where
  platform : List Char
  contest_code : List Char
  problem_code : List Char
  problem_link : List Char
  difficulty : Option (List Char)
  tags : List Char
  created_date : List Char
  status : List Char
deriving DecidableEq

/-- `CPDojoTool.store_problem_info` (lines 294-309): the inserted row;
`created_iso` is the `datetime.now().isoformat()` reading and `status`
takes the schema default. -/
def storeRow (p : ProblemInfo) (created_iso : List Char) : DbRow :=
  { platform := p.platform
    contest_code := p.contest_code
    problem_code := p.problem_code
    problem_link := p.problem_link
    difficulty := p.difficulty
    tags := json_dumps_tags p.tags
    created_date := created_iso
    status := chars "PENDING" }

/-- Outcome of the `subprocess.run(["code", dir], check=True)` call. -/
inductive EditorOutcome where
  | launched
  | exitNonzero
  | missing
deriving DecidableEq

/-- `CPDojoTool.open_vscode` (lines 286-292).  With `check=True` the
call raises `subprocess.CalledProcessError` when the editor command runs
and exits non-zero — the one exception the `except` clause catches (the
handler logs and prints a warning, then control continues) — and raises
`FileNotFoundError` when the `code` command does not exist, which the
handler does not catch and therefore propagates. -/
def open_vscode (editor : EditorOutcome) : Except PyErr Unit :=
  match editor with
  | .launched => .ok ()
  | .exitNonzero => .ok ()
  | .missing => .error .fileNotFound

/-! ## The session (`CPDojoTool.run`) -/

/-- The wall-clock readings `run` and its callees take, pre-rendered in
the three formats the source uses. -/
structure NowStrings where
  meta : List Char
  log : List Char
  iso : List Char
deriving DecidableEq

/-- Observable persistent state: directories created, artifact files
written (path, content), daily-log blocks appended, catalog rows
inserted. -/
structure WorldState where
  dirs : List (List Char)
  files : List (List Char × List Char)
  logEntries : List (List Char)
  dbRows : List DbRow
deriving DecidableEq

/-- The empty workspace. -/
def emptyState : WorldState := ⟨[], [], [], []⟩

/-- How a session ends: the final success prints, the silent
`return` of the `contest_code == "unknown"` branch, or an uncaught
exception. -/
inductive RunResult where
  | completed
  | silentExit
  | raised (e : PyErr)
deriving DecidableEq

/-- `CPDojoTool.run` (lines 338-377) from the point the three inputs
are collected: extraction, the `"unknown"` sentinel check, directory
creation, the three artifact writes, the daily-log append, the catalog
insert, and the editor launch, in source order.  An uncaught exception
leaves every already-performed write in place (no rollback exists in
the source). -/
def runModel (platform language link difficulty : List Char)
    (tags : List (List Char)) (now : NowStrings) (editor : EditorOutcome)
    (s0 : WorldState) : RunResult × WorldState :=
  match extract_codes_from_link link platform with
  | .error e => (.raised e, s0)
  | .ok (contest_code, problem_code) =>
    if contest_code = chars "unknown" then (.silentExit, s0)
    else
      let p : ProblemInfo :=
        { platform := platform
          contest_code := contest_code
          problem_code := problem_code
          problem_link := link
          difficulty := some difficulty
          tags := some tags
          created_date := some now.meta }
      let solutions_dir := chars "My-CP-Dojo/Solutions/" ++ platform
      let questions_dir :=
        chars "My-CP-Dojo/Practiced-Problems/" ++ platform ++ chars "/Questions"
      let thought_dir :=
        chars "My-CP-Dojo/Practiced-Problems/" ++ platform ++ chars "/Thought-Process"
      let s1 : WorldState :=
        { s0 with dirs := s0.dirs ++ [solutions_dir, questions_dir, thought_dir] }
      match create_problem_files p language solutions_dir thought_dir now.meta with
      | .error e => (.raised e, s1)
      | .ok newFiles =>
        let s2 : WorldState := { s1 with files := s1.files ++ newFiles }
        let s3 : WorldState :=
          { s2 with logEntries := s2.logEntries ++ [daily_log_entry p now.log] }
        let s4 : WorldState := { s3 with dbRows := s3.dbRows ++ [storeRow p now.iso] }
        match open_vscode editor with
        | .error e => (.raised e, s4)
        | .ok _ => (.completed, s4)

/-! ## Matcher lemmas

What the claims need from the matcher: every text captured by a group
`grp n (.cls c)` is a non-empty run of characters satisfying `c`.  The
lemmas below establish that for any regex built from the constructors
above, by relating each capture recorded in a `mrun` result to the
character class of the group that produced it. -/

/-- Membership in a `cls` run: no captures, and the consumed prefix
(recovered from the lengths) is a non-empty run of class characters. -/
theorem mrun_cls_mem {c : Char → Bool} {s : List Char} {caps : Caps}
    {rest : List Char} (h : (caps, rest) ∈ mrun (.cls c) s) :
    caps = [] ∧ s.take (s.length - rest.length) ≠ [] ∧
      ∀ ch ∈ s.take (s.length - rest.length), c ch = true := by
  simp only [mrun, List.mem_map, List.mem_range] at h
  obtain ⟨i, hi, heq⟩ := h
  obtain ⟨hcaps, hrest⟩ := Prod.mk.injEq .. ▸ heq
  set k := (s.takeWhile c).length with hk
  have hkpos : 1 ≤ k - i := by omega
  have hkle : k - i ≤ k := Nat.sub_le k i
  have hks : k ≤ s.length := by
    have := (List.takeWhile_prefix (l := s) c).length_le
    omega
  have hlen : rest.length = s.length - (k - i) := by
    rw [← hrest]; simp
  have hconsumed : s.length - rest.length = k - i := by omega
  refine ⟨hcaps.symm, ?_, ?_⟩
  · rw [hconsumed]
    have : (s.take (k - i)).length = k - i := by
      simp [List.length_take]; omega
    intro hnil
    rw [hnil] at this
    simp at this
    omega
  · rw [hconsumed]
    intro ch hch
    obtain ⟨t, ht⟩ := List.takeWhile_prefix (l := s) c
    rw [← ht, List.take_append_of_le_length (by omega)] at hch
    exact List.mem_takeWhile_imp (List.mem_of_mem_take hch)

/-- Per-group specification: `P n t` constrains the text `t` captured
by group `n`. -/
def GPred := Nat → List Char → Prop

/-- A regex respects `P` when every capturing group inside it only
yields texts satisfying `P` at the group's number. -/
inductive REOk (P : GPred) : RE → Prop where
  | lit (l : List Char) : REOk P (.lit l)
  | cls (c : Char → Bool) : REOk P (.cls c)
  | alt {r1 r2 : RE} : REOk P r1 → REOk P r2 → REOk P (.alt r1 r2)
  | opt {r : RE} : REOk P r → REOk P (.opt r)
  | cat {r1 r2 : RE} : REOk P r1 → REOk P r2 → REOk P (.cat r1 r2)
  | grp {r : RE} {n : Nat} : REOk P r →
      (∀ s (caps : Caps) rest, (caps, rest) ∈ mrun r s →
        P n (s.take (s.length - rest.length))) →
      REOk P (.grp n r)

/-- Every capture in every `mrun` result of a regex respecting `P`
satisfies `P`. -/
theorem mrun_caps_sound {P : GPred} {re : RE} (hok : REOk P re) :
    ∀ s (caps : Caps) rest, (caps, rest) ∈ mrun re s →
      ∀ g ∈ caps, P g.1 g.2 := by
  induction hok with
  | lit l =>
    intro s caps rest h g hg
    simp only [mrun] at h
    cases hl : litMatch l s with
    | none => rw [hl] at h; simp at h
    | some r =>
      rw [hl] at h
      simp at h
      rw [h.1] at hg
      simp at hg
  | cls c =>
    intro s caps rest h g hg
    obtain ⟨hcaps, -, -⟩ := mrun_cls_mem h
    rw [hcaps] at hg
    simp at hg
  | alt h1 h2 ih1 ih2 =>
    intro s caps rest h g hg
    simp only [mrun, List.mem_append] at h
    cases h with
    | inl h => exact ih1 s caps rest h g hg
    | inr h => exact ih2 s caps rest h g hg
  | opt h1 ih =>
    intro s caps rest h g hg
    simp only [mrun, List.mem_append] at h
    cases h with
    | inl h => exact ih s caps rest h g hg
    | inr h =>
      simp at h
      rw [h.1] at hg
      simp at hg
  | cat h1 h2 ih1 ih2 =>
    intro s caps rest h g hg
    simp only [mrun, List.mem_flatMap, List.mem_map] at h
    obtain ⟨pr, hpr, qr, hqr, heq⟩ := h
    obtain ⟨hcaps, -⟩ := Prod.mk.injEq .. ▸ heq
    rw [← hcaps] at hg
    rcases List.mem_append.mp hg with hg1 | hg2
    · exact ih1 s pr.1 pr.2 (by simpa using hpr) g hg1
    · exact ih2 pr.2 qr.1 qr.2 (by simpa using hqr) g hg2
  | grp h1 hside ih =>
    intro s caps rest h g hg
    simp only [mrun, List.mem_map] at h
    obtain ⟨pr, hpr, heq⟩ := h
    obtain ⟨hcaps, -⟩ := Prod.mk.injEq .. ▸ heq
    rw [← hcaps] at hg
    rcases List.mem_cons.mp hg with hg0 | hgs
    · rw [hg0]
      exact hside s pr.1 pr.2 (by simpa using hpr)
    · exact ih s pr.1 pr.2 (by simpa using hpr) g hgs

/-- A successful `research` returns the captures of some `mrun` result
(at the start position where the search first succeeded). -/
theorem research_mem {re : RE} :
    ∀ {s : List Char} {caps : Caps}, research re s = some caps →
      ∃ s2 rest, (caps, rest) ∈ mrun re s2 := by
  intro s
  induction s with
  | nil =>
    intro caps h
    simp only [research] at h
    cases hm : mrun re [] with
    | nil => rw [hm] at h; cases h
    | cons r rs =>
      rw [hm] at h
      simp at h
      exact ⟨[], r.2, by rw [hm, ← h]; simp⟩
  | cons c t ih =>
    intro caps h
    simp only [research] at h
    cases hm : mrun re (c :: t) with
    | nil =>
      rw [hm] at h
      exact ih h
    | cons r rs =>
      rw [hm] at h
      simp at h
      exact ⟨c :: t, r.2, by rw [hm, ← h]; simp⟩

/-- `getGroup caps n = some t` means `(n, t)` is recorded in `caps`. -/
theorem getGroup_mem {n : Nat} {t : List Char} :
    ∀ {caps : Caps}, getGroup caps n = some t → (n, t) ∈ caps := by
  intro caps
  induction caps with
  | nil => intro h; cases h
  | cons g gs ih =>
    intro h
    unfold getGroup at h
    by_cases hg : g.1 = n
    · rw [if_pos hg] at h
      have : g = (n, t) := by
        cases g
        simp at hg h
        simp [hg, h]
      rw [this]
      exact List.mem_cons_self ..
    · rw [if_neg hg] at h
      exact List.mem_cons_of_mem g (ih h)

/-- Group specification for the Leetcode pattern: both groups capture
non-empty slug text. -/
def lcP : GPred := fun _ t => t ≠ [] ∧ ∀ ch ∈ t, slugChar ch = true

/-- Group specification for the Codeforces pattern: group 1 is a
non-empty run of non-slash characters, group 2 a non-empty alphanumeric
run. -/
def cfP : GPred := fun n t =>
  t ≠ [] ∧ ∀ ch ∈ t, (if n = 2 then cfAlnum ch else nonSlash ch) = true

/-- Group specification for the CodeChef pattern: group 1 is a
non-empty run of upper-case alphanumerics. -/
def ccP : GPred := fun _ t => t ≠ [] ∧ ∀ ch ∈ t, ucAlnum ch = true

/-- The Leetcode pattern respects its group specification. -/
theorem leetcodeRE_ok : REOk lcP leetcodeRE := by
  refine REOk.cat (REOk.lit _) (REOk.cat (REOk.alt (REOk.lit _) (REOk.lit _))
    (REOk.cat (REOk.lit _) (REOk.cat (REOk.grp (REOk.cls _) ?_)
      (REOk.opt (REOk.cat (REOk.lit _) (REOk.grp (REOk.cls _) ?_))))))
  all_goals
    intro s caps rest h
    obtain ⟨-, hne, hall⟩ := mrun_cls_mem h
    exact ⟨hne, hall⟩

/-- The Codeforces pattern respects its group specification. -/
theorem codeforcesRE_ok : REOk cfP codeforcesRE := by
  refine REOk.cat (REOk.lit _) (REOk.cat
    (REOk.alt (REOk.lit _) (REOk.alt (REOk.lit _) (REOk.lit _)))
    (REOk.cat (REOk.lit _) (REOk.cat (REOk.grp (REOk.cls _) ?_)
      (REOk.cat (REOk.lit _) (REOk.cat (REOk.opt (REOk.lit _))
        (REOk.grp (REOk.cls _) ?_))))))
  all_goals
    intro s caps rest h
    obtain ⟨-, hne, hall⟩ := mrun_cls_mem h
    exact ⟨hne, by simpa using hall⟩

/-- The CodeChef pattern respects its group specification. -/
theorem codechefRE_ok : REOk ccP codechefRE := by
  refine REOk.cat (REOk.lit _) (REOk.cat
    (REOk.opt (REOk.cat (REOk.cls _) (REOk.lit _)))
    (REOk.cat (REOk.opt (REOk.lit _)) (REOk.grp (REOk.cls _) ?_)))
  intro s caps rest h
  obtain ⟨-, hne, hall⟩ := mrun_cls_mem h
  exact ⟨hne, hall⟩

/-- Soundness of Leetcode extraction: the contest id is the literal
"leetcode" and the problem id is a non-empty run of slug characters. -/
theorem leetcodeExtract_sound {link : List Char} {r : List Char × List Char}
    (h : leetcodeExtract link = some r) :
    r.1 = chars "leetcode" ∧ r.2 ≠ [] ∧ ∀ ch ∈ r.2, slugChar ch = true := by
  unfold leetcodeExtract at h
  cases hres : research leetcodeRE link with
  | none =>
    simp only [hres] at h
    cases h
  | some caps =>
    simp only [hres] at h
    cases hg1 : getGroup caps 1 with
    | none =>
      simp only [hg1] at h
      cases h
    | some g1 =>
      simp only [hg1] at h
      obtain ⟨s2, rest, hmem⟩ := research_mem hres
      have hsound := mrun_caps_sound leetcodeRE_ok s2 caps rest hmem
      have h1 : lcP 1 g1 := hsound (1, g1) (getGroup_mem hg1)
      cases hg2 : getGroup caps 2 with
      | none =>
        simp only [hg2] at h
        cases h
        exact ⟨rfl, h1.1, h1.2⟩
      | some g2 =>
        simp only [hg2] at h
        have h2 : lcP 2 g2 := hsound (2, g2) (getGroup_mem hg2)
        have hge : g2.isEmpty = false := by
          cases hg2e : g2
          · exact absurd hg2e h2.1
          · rfl
        simp only [hge, Bool.false_eq_true, if_false] at h
        cases h
        exact ⟨rfl, h2.1, h2.2⟩

/-- Soundness of CodeChef extraction: the contest id is the literal
"codechef" and the problem id is a non-empty run of upper-case
alphanumerics. -/
theorem codechefExtract_sound {link : List Char} {r : List Char × List Char}
    (h : codechefExtract link = some r) :
    r.1 = chars "codechef" ∧ r.2 ≠ [] ∧ ∀ ch ∈ r.2, ucAlnum ch = true := by
  unfold codechefExtract at h
  cases hres : research codechefRE link with
  | none =>
    simp only [hres] at h
    cases h
  | some caps =>
    simp only [hres] at h
    cases hg1 : getGroup caps 1 with
    | none =>
      simp only [hg1] at h
      cases h
    | some g1 =>
      simp only [hg1] at h
      obtain ⟨s2, rest, hmem⟩ := research_mem hres
      have h1 : ccP 1 g1 :=
        mrun_caps_sound codechefRE_ok s2 caps rest hmem (1, g1) (getGroup_mem hg1)
      cases h
      exact ⟨rfl, h1.1, h1.2⟩

/-- Soundness of Codeforces extraction: the contest id is a non-empty
run of non-slash characters and the problem id a non-empty alphanumeric
run. -/
theorem codeforcesExtract_sound {link : List Char} {r : List Char × List Char}
    (h : codeforcesExtract link = some r) :
    (r.1 ≠ [] ∧ ∀ ch ∈ r.1, nonSlash ch = true) ∧
      (r.2 ≠ [] ∧ ∀ ch ∈ r.2, cfAlnum ch = true) := by
  unfold codeforcesExtract at h
  cases hres : research codeforcesRE link with
  | none =>
    simp only [hres] at h
    cases h
  | some caps =>
    simp only [hres] at h
    cases hg1 : getGroup caps 1 with
    | none =>
      simp only [hg1] at h
      cases h
    | some g1 =>
      cases hg2 : getGroup caps 2 with
      | none =>
        simp only [hg1, hg2] at h
        cases h
      | some g2 =>
        simp only [hg1, hg2] at h
        obtain ⟨s2, rest, hmem⟩ := research_mem hres
        have hsound := mrun_caps_sound codeforcesRE_ok s2 caps rest hmem
        have h1 : cfP 1 g1 := hsound (1, g1) (getGroup_mem hg1)
        have h2 : cfP 2 g2 := hsound (2, g2) (getGroup_mem hg2)
        cases h
        refine ⟨⟨h1.1, ?_⟩, ⟨h2.1, ?_⟩⟩
        · intro ch hch
          simpa using h1.2 ch hch
        · intro ch hch
          simpa using h2.2 ch hch

/-! ## Helper lemmas for filenames and the session model -/

/-- Splitting an underscore-joined pair is unambiguous when the left
parts contain no underscore. -/
theorem underscore_split :
    ∀ (a c b d : List Char), '_' ∉ a → '_' ∉ c →
      a ++ '_' :: b = c ++ '_' :: d → a = c ∧ b = d := by
  intro a
  induction a with
  | nil =>
    intro c b d _ hc h
    cases c with
    | nil =>
      simp only [List.nil_append] at h
      exact ⟨rfl, (List.cons.injEq .. ▸ h).2⟩
    | cons x cs =>
      simp only [List.nil_append, List.cons_append] at h
      obtain ⟨hx, -⟩ := List.cons.injEq .. ▸ h
      exact absurd (hx ▸ List.mem_cons_self x cs) hc
  | cons x xs ih =>
    intro c b d ha hc h
    cases c with
    | nil =>
      simp only [List.cons_append, List.nil_append] at h
      obtain ⟨hx, -⟩ := List.cons.injEq .. ▸ h
      exact absurd (hx ▸ List.mem_cons_self x xs) ha
    | cons y cs =>
      simp only [List.cons_append] at h
      obtain ⟨hxy, h2⟩ := List.cons.injEq .. ▸ h
      obtain ⟨h3, h4⟩ :=
        ih cs b d (fun hm => ha (List.mem_cons_of_mem x hm))
          (fun hm => hc (List.mem_cons_of_mem y hm)) h2
      exact ⟨by rw [hxy, h3], h4⟩

/-- The underscore-joined filename stem, as `generate_filename` builds
it. -/
theorem filename_stem_inj {a1 b1 c1 a2 b2 c2 e : List Char}
    (ha1 : '_' ∉ a1) (ha2 : '_' ∉ a2) (hb1 : '_' ∉ b1) (hb2 : '_' ∉ b2)
    (h : a1 ++ chars "_" ++ b1 ++ chars "_" ++ c1 ++ e
       = a2 ++ chars "_" ++ b2 ++ chars "_" ++ c2 ++ e) :
    a1 = a2 ∧ b1 = b2 ∧ c1 = c2 := by
  have h' : a1 ++ '_' :: (b1 ++ '_' :: (c1 ++ e))
      = a2 ++ '_' :: (b2 ++ '_' :: (c2 ++ e)) := by
    simpa [chars, List.append_assoc] using h
  obtain ⟨hA, h2⟩ := underscore_split a1 a2 _ _ ha1 ha2 h'
  obtain ⟨hB, h3⟩ := underscore_split b1 b2 _ _ hb1 hb2 h2
  exact ⟨hA, hB, (List.append_inj' h3 rfl).1⟩

/-- Slug characters lie in the claim's file-name-safe set
(alphanumeric, underscore, hyphen). -/
def safeChar (c : Char) : Bool := cfAlnum c || c == '_' || c == '-'

/-- Slug characters are safe. -/
theorem slugChar_safe {c : Char} (h : slugChar c = true) : safeChar c = true := by
  simp only [slugChar, Bool.or_eq_true] at h
  rcases h with h | h <;> simp [safeChar, h]

/-- Upper-case alphanumerics are safe. -/
theorem ucAlnum_safe {c : Char} (h : ucAlnum c = true) : safeChar c = true := by
  simp only [ucAlnum, Bool.or_eq_true] at h
  rcases h with h | h <;> simp [safeChar, cfAlnum, h]

/-- Alphanumerics are safe. -/
theorem cfAlnum_safe {c : Char} (h : cfAlnum c = true) : safeChar c = true := by
  simp [safeChar, h]

/-- Slug characters are never the underscore. -/
theorem slugChar_ne_underscore {c : Char} (h : slugChar c = true) : c ≠ '_' := by
  intro hc
  rw [hc] at h
  simp [slugChar, cfAlnum] at h

/-- The platform dispatch table at the four registered names. -/
theorem platformExtractFn_codeforces :
    platformExtractFn (chars "Codeforces") = some codeforcesExtract := rfl

/-- Dispatch at "Leetcode". -/
theorem platformExtractFn_leetcode :
    platformExtractFn (chars "Leetcode") = some leetcodeExtract := rfl

/-- Dispatch at "CodeChef". -/
theorem platformExtractFn_codechef :
    platformExtractFn (chars "CodeChef") = some codechefExtract := rfl

/-- Unfolding `extract_codes_from_link` through the dispatch table. -/
theorem extract_eq_of_fn {platform : List Char}
    {f : List Char → Option (List Char × List Char)}
    (hf : platformExtractFn platform = some f) (link : List Char) :
    extract_codes_from_link link platform =
      match f link with
      | none => .error (.extractionError link)
      | some r => .ok r := by
  unfold extract_codes_from_link
  rw [hf]

/-- `generate_filename` at kind "solution" for a registered language. -/
theorem generate_filename_solution {p : ProblemInfo} {language ext : List Char}
    (hl : lookupAssoc LANGUAGES language = some ext) :
    generate_filename p language (chars "solution") =
      .ok (pyLower p.platform ++ chars "_" ++ pyLower p.contest_code
            ++ chars "_" ++ p.problem_code ++ ext) := by
  unfold generate_filename
  rw [if_pos rfl, hl]

/-- `generate_filename` at kind "thought". -/
theorem generate_filename_thought (p : ProblemInfo) (language : List Char) :
    generate_filename p language (chars "thought") =
      .ok (pyLower p.platform ++ chars "_" ++ pyLower p.contest_code
            ++ chars "_" ++ p.problem_code ++ chars ".md") := by
  unfold generate_filename
  rw [if_neg (by decide), if_pos rfl]

/-- `generate_filename` at kind "link". -/
theorem generate_filename_link (p : ProblemInfo) (language : List Char) :
    generate_filename p language (chars "link") =
      .ok (pyLower p.platform ++ chars "_" ++ pyLower p.contest_code
            ++ chars "_" ++ p.problem_code ++ chars ".txt") := by
  unfold generate_filename
  rw [if_neg (by decide), if_neg (by decide), if_pos rfl]

/-- `create_problem_files` succeeds for a registered language and
performs exactly the three writes, in source order. -/
theorem create_problem_files_ok {p : ProblemInfo} {language ext : List Char}
    (hl : lookupAssoc LANGUAGES language = some ext)
    (solutions_dir thought_dir now : List Char) :
    create_problem_files p language solutions_dir thought_dir now =
      .ok [(solutions_dir ++ chars "/"
              ++ (pyLower p.platform ++ chars "_" ++ pyLower p.contest_code
                  ++ chars "_" ++ p.problem_code ++ ext),
            get_language_template language p now),
           (solutions_dir ++ chars "/"
              ++ (pyLower p.platform ++ chars "_" ++ pyLower p.contest_code
                  ++ chars "_" ++ p.problem_code ++ chars ".txt"),
            p.problem_link),
           (thought_dir ++ chars "/"
              ++ (pyLower p.platform ++ chars "_" ++ pyLower p.contest_code
                  ++ chars "_" ++ p.problem_code ++ chars ".md"),
            thought_template p)] := by
  unfold create_problem_files
  rw [generate_filename_solution hl, generate_filename_link,
    generate_filename_thought]

/-! ## Claims -/

/-- A concrete problem as `run` would build it from the two-sum URL. -/
def sampleProblem : ProblemInfo :=
  { platform := chars "Leetcode"
    contest_code := chars "leetcode"
    problem_code := chars "two-sum"
    problem_link := chars "https://leetcode.com/problems/two-sum/"
    difficulty := some (chars "Easy")
    tags := some [chars "array", chars "hash-table"]
    created_date := some (chars "2026-10-12 10:00:00") }

/-- A concrete problem as `run` would build it from Codeforces contest
1500 problem C. -/
def cfProblem : ProblemInfo :=
  { platform := chars "Codeforces"
    contest_code := chars "1500"
    problem_code := chars "C"
    problem_link := chars "https://codeforces.com/contest/1500/problem/C"
    difficulty := some []
    tags := some []
    created_date := some (chars "2026-10-12 10:00:00") }

/-- C1 (counterexample): extraction for the URL with slug "two-sum"
returns problem id "two-sum" verbatim, which differs from the "two_sum"
the claim requires — the Leetcode projection performs no
hyphen-to-underscore rewriting. -/
theorem C1_counterexample :
    extract_codes_from_link (chars "https://leetcode.com/problems/two-sum/")
        (chars "Leetcode")
      = .ok (chars "leetcode", chars "two-sum")
    ∧ decide (chars "two-sum" = chars "two_sum") = false :=
  ⟨rfl, by decide⟩

/-- C1 (amended): for every Leetcode URL on which extraction succeeds,
the returned problem id is the captured slug verbatim — hyphens are kept
and no underscore is ever introduced; in particular the slug "two-sum"
yields problem id "two-sum". -/
theorem C1_amended :
    (extract_codes_from_link (chars "https://leetcode.com/problems/two-sum/")
        (chars "Leetcode")
      = .ok (chars "leetcode", chars "two-sum"))
    ∧ ∀ link cc pid,
        extract_codes_from_link link (chars "Leetcode") = .ok (cc, pid) →
        '_' ∉ pid := by
  refine ⟨rfl, ?_⟩
  intro link cc pid h
  rw [extract_eq_of_fn platformExtractFn_leetcode] at h
  cases hx : leetcodeExtract link with
  | none => rw [hx] at h; cases h
  | some r =>
    rw [hx] at h
    cases h
    intro hmem
    exact slugChar_ne_underscore ((leetcodeExtract_sound hx).2.2 '_' hmem) rfl

/-- C1 (witness): the general part of the amended claim applied at the
two-sum URL. -/
theorem C1_witness : '_' ∉ chars "two-sum" :=
  C1_amended.2 (chars "https://leetcode.com/problems/two-sum/")
    (chars "leetcode") (chars "two-sum") rfl

/-- C2 (counterexample): for a language without a registered skeleton
(Java), `get_language_template` returns the empty string, while the
metadata block for the same inputs is non-empty — so the result does not
contain the metadata block the claim promises. -/
theorem C2_counterexample :
    get_language_template (chars "Java") sampleProblem
        (chars "2026-10-12 10:00:00") = []
    ∧ (generate_metadata_comment sampleProblem (chars "Java")
        (chars "2026-10-12 10:00:00")).isEmpty = false :=
  ⟨rfl, rfl⟩

/-- C2 (amended): for every language other than Python and C++ (the
only two with registered skeletons), rendering the solution text never
fails and returns the empty string — the `templates.get(language, "")`
fallback — not a metadata stub. -/
theorem C2_amended :
    ∀ (language : List Char) (p : ProblemInfo) (now : List Char),
      ¬ language = chars "Python" → ¬ language = chars "C++" →
      get_language_template language p now = [] := by
  intro language p now h1 h2
  unfold get_language_template
  rw [if_neg h1, if_neg h2]

/-- C2 (witness): the amended claim applied at Java. -/
theorem C2_witness :
    get_language_template (chars "Java") sampleProblem
        (chars "2026-10-12 10:00:00") = [] :=
  C2_amended (chars "Java") sampleProblem (chars "2026-10-12 10:00:00")
    (by decide) (by decide)

/-- C3 (counterexample): the Codeforces URL with contest token "1500"
and problem token "C" extracts to ("1500", "C"), but the generated
solution filename keeps the problem letter upper-case —
"codeforces_1500_C.cpp", not the "codeforces_1500_c.cpp" the claim
requires. -/
theorem C3_counterexample :
    generate_filename cfProblem (chars "C++") (chars "solution")
      = .ok (chars "codeforces_1500_C.cpp")
    ∧ decide (chars "codeforces_1500_C.cpp" = chars "codeforces_1500_c.cpp")
      = false :=
  ⟨rfl, by decide⟩

/-- C3 (amended): extraction yields ("1500", "C"), and the generated
solution filename joins the lower-cased platform, the lower-cased
contest id and the problem id kept verbatim (case preserved) with
underscores, plus the language's registered extension:
"codeforces_1500_C.cpp". -/
theorem C3_amended :
    extract_codes_from_link
        (chars "https://codeforces.com/contest/1500/problem/C")
        (chars "Codeforces")
      = .ok (chars "1500", chars "C")
    ∧ generate_filename cfProblem (chars "C++") (chars "solution")
      = .ok (chars "codeforces_1500_C.cpp")
    ∧ generate_filename cfProblem (chars "C++") (chars "link")
      = .ok (chars "codeforces_1500_C.txt")
    ∧ generate_filename cfProblem (chars "C++") (chars "thought")
      = .ok (chars "codeforces_1500_C.md") :=
  ⟨rfl, rfl, rfl, rfl⟩

/-- C9: for every URL on which slug-based extraction succeeds, the
returned contest id is the lower-cased platform-name literal itself:
"leetcode" for Leetcode, "codechef" for CodeChef. -/
theorem C9_thm :
    (∀ link r, extract_codes_from_link link (chars "Leetcode") = .ok r →
      r.1 = chars "leetcode")
    ∧ (∀ link r, extract_codes_from_link link (chars "CodeChef") = .ok r →
      r.1 = chars "codechef") := by
  constructor
  · intro link r h
    rw [extract_eq_of_fn platformExtractFn_leetcode] at h
    cases hx : leetcodeExtract link with
    | none => rw [hx] at h; cases h
    | some r2 =>
      rw [hx] at h
      cases h
      exact (leetcodeExtract_sound hx).1
  · intro link r h
    rw [extract_eq_of_fn platformExtractFn_codechef] at h
    cases hx : codechefExtract link with
    | none => rw [hx] at h; cases h
    | some r2 =>
      rw [hx] at h
      cases h
      exact (codechefExtract_sound hx).1

/-- C9 (witness): both parts of the claim applied at concrete URLs. -/
theorem C9_witness :
    (chars "leetcode", chars "two-sum").1 = chars "leetcode"
    ∧ (chars "codechef", chars "TSORT").1 = chars "codechef" :=
  ⟨C9_thm.1 (chars "https://leetcode.com/problems/two-sum/")
      (chars "leetcode", chars "two-sum") rfl,
   C9_thm.2 (chars "https://www.codechef.com/problems/TSORT")
      (chars "codechef", chars "TSORT") rfl⟩

/-- C6 (counterexample): the claimed invariant fails on AtCoder — a
well-formed AtCoder URL whose task token ends in an underscore extracts
successfully with an empty problem id. -/
theorem C6_counterexample :
    extract_codes_from_link (chars "https://atcoder.jp/contests/abc/tasks/abc_")
        (chars "AtCoder")
      = .ok (chars "abc", [])
    ∧ (chars "abc", ([] : List Char)).2.isEmpty = true :=
  ⟨rfl, rfl⟩

/-- C6 (amended): the invariant holds for three of the four platforms,
with a weakening for Codeforces contest ids.  Whenever extraction
succeeds, both identifiers are non-empty; for Leetcode and CodeChef all
their characters are file-name safe (alphanumeric, underscore, hyphen),
and for Codeforces the problem id is safe while the contest id is only
guaranteed slash-free (its pattern admits any non-slash character).
For AtCoder neither non-emptiness nor safety is guaranteed. -/
theorem C6_amended :
    (∀ link r, extract_codes_from_link link (chars "Leetcode") = .ok r →
      r.1 ≠ [] ∧ r.2 ≠ [] ∧ (∀ c ∈ r.1, safeChar c = true)
        ∧ (∀ c ∈ r.2, safeChar c = true))
    ∧ (∀ link r, extract_codes_from_link link (chars "CodeChef") = .ok r →
      r.1 ≠ [] ∧ r.2 ≠ [] ∧ (∀ c ∈ r.1, safeChar c = true)
        ∧ (∀ c ∈ r.2, safeChar c = true))
    ∧ (∀ link r, extract_codes_from_link link (chars "Codeforces") = .ok r →
      r.1 ≠ [] ∧ r.2 ≠ [] ∧ (∀ c ∈ r.1, nonSlash c = true)
        ∧ (∀ c ∈ r.2, safeChar c = true)) := by
  refine ⟨?_, ?_, ?_⟩
  · intro link r h
    rw [extract_eq_of_fn platformExtractFn_leetcode] at h
    cases hx : leetcodeExtract link with
    | none => rw [hx] at h; cases h
    | some r2 =>
      rw [hx] at h
      cases h
      obtain ⟨h1, h2, h3⟩ := leetcodeExtract_sound hx
      refine ⟨by rw [h1]; decide, h2, ?_, ?_⟩
      · rw [h1]; decide
      · intro c hc
        exact slugChar_safe (h3 c hc)
  · intro link r h
    rw [extract_eq_of_fn platformExtractFn_codechef] at h
    cases hx : codechefExtract link with
    | none => rw [hx] at h; cases h
    | some r2 =>
      rw [hx] at h
      cases h
      obtain ⟨h1, h2, h3⟩ := codechefExtract_sound hx
      refine ⟨by rw [h1]; decide, h2, ?_, ?_⟩
      · rw [h1]; decide
      · intro c hc
        exact ucAlnum_safe (h3 c hc)
  · intro link r h
    rw [extract_eq_of_fn platformExtractFn_codeforces] at h
    cases hx : codeforcesExtract link with
    | none => rw [hx] at h; cases h
    | some r2 =>
      rw [hx] at h
      cases h
      obtain ⟨⟨h1, h2⟩, h3, h4⟩ := codeforcesExtract_sound hx
      refine ⟨h1, h3, h2, ?_⟩
      intro c hc
      exact cfAlnum_safe (h4 c hc)

/-- C6 (witness): the Leetcode part of the amended claim applied at the
two-sum URL. -/
theorem C6_witness :
    chars "two-sum" ≠ [] ∧ ∀ c ∈ chars "two-sum", safeChar c = true :=
  ⟨(C6_amended.1 (chars "https://leetcode.com/problems/two-sum/")
      (chars "leetcode", chars "two-sum") rfl).2.1,
   (C6_amended.1 (chars "https://leetcode.com/problems/two-sum/")
      (chars "leetcode", chars "two-sum") rfl).2.2.2⟩

/-- C8: for every problem and every registered language,
`generate_filename` returns a name without failing for the three valid
kinds, and fails with the invalid-file-kind error for every other kind
value. -/
theorem C8_thm :
    ∀ (p : ProblemInfo) (language ext kind : List Char),
      lookupAssoc LANGUAGES language = some ext →
      ((kind = chars "solution" ∨ kind = chars "thought" ∨ kind = chars "link") →
        ∃ name, generate_filename p language kind = .ok name)
      ∧ (¬ kind = chars "solution" → ¬ kind = chars "thought" →
          ¬ kind = chars "link" →
          generate_filename p language kind = .error (.invalidFileKind kind)) := by
  intro p language ext kind hl
  constructor
  · intro hkind
    rcases hkind with h | h | h
    · exact ⟨_, h ▸ generate_filename_solution hl⟩
    · exact ⟨_, h ▸ generate_filename_thought p language⟩
    · exact ⟨_, h ▸ generate_filename_link p language⟩
  · intro h1 h2 h3
    unfold generate_filename
    rw [if_neg h1, if_neg h2, if_neg h3]

/-- C8 (witness): the claim applied at a concrete problem, the
registered language Python, the valid kind "solution" and the invalid
kind "notes". -/
theorem C8_witness :
    (∃ name, generate_filename cfProblem (chars "Python") (chars "solution")
      = .ok name)
    ∧ generate_filename cfProblem (chars "Python") (chars "notes")
      = .error (.invalidFileKind (chars "notes")) :=
  ⟨(C8_thm cfProblem (chars "Python") (chars ".py") (chars "solution") rfl).1
      (Or.inl rfl),
   (C8_thm cfProblem (chars "Python") (chars ".py") (chars "notes") rfl).2
      (by decide) (by decide) (by decide)⟩

/-- Two problems whose identifier triples differ only in the letter
case of the contest id. -/
def cfProblemUpper : ProblemInfo :=
  { platform := chars "Codeforces"
    contest_code := chars "DIV2"
    problem_code := chars "A"
    problem_link := chars "https://codeforces.com/contest/DIV2/problem/A" }

/-- Companion to `cfProblemUpper` with a lower-case contest id. -/
def cfProblemLower : ProblemInfo :=
  { platform := chars "Codeforces"
    contest_code := chars "div2"
    problem_code := chars "A"
    problem_link := chars "https://codeforces.com/contest/div2/problem/A" }

/-- C4 (counterexample): two problems with distinct
(platform, contest_id, problem_id) triples — contest ids "DIV2" and
"div2" — generate the same solution filename, so filename generation is
not injective on distinct triples. -/
theorem C4_counterexample :
    decide ((cfProblemUpper.platform, cfProblemUpper.contest_code,
        cfProblemUpper.problem_code)
      = (cfProblemLower.platform, cfProblemLower.contest_code,
        cfProblemLower.problem_code)) = false
    ∧ generate_filename cfProblemUpper (chars "C++") (chars "solution")
      = generate_filename cfProblemLower (chars "C++") (chars "solution") :=
  ⟨by decide, rfl⟩

/-- C4 (amended): filename generation is deterministic (identical
inputs give identical strings), and it is injective on identifier
triples once platform and contest id are compared after the lower-casing
the generator applies, provided the lower-cased platform and contest id
contain no underscore (the join separator): equal filenames for the same
language and kind force equal normalized triples.  Distinct triples that
differ only in letter case of platform or contest id, or that embed
underscores straddling the separators, may collide. -/
theorem C4_amended :
    ∀ (p1 p2 : ProblemInfo) (language ext kind : List Char),
      lookupAssoc LANGUAGES language = some ext →
      (kind = chars "solution" ∨ kind = chars "thought" ∨ kind = chars "link") →
      '_' ∉ pyLower p1.platform → '_' ∉ pyLower p2.platform →
      '_' ∉ pyLower p1.contest_code → '_' ∉ pyLower p2.contest_code →
      (generate_filename p1 language kind = generate_filename p1 language kind)
      ∧ (generate_filename p1 language kind = generate_filename p2 language kind →
          pyLower p1.platform = pyLower p2.platform
          ∧ pyLower p1.contest_code = pyLower p2.contest_code
          ∧ p1.problem_code = p2.problem_code) := by
  intro p1 p2 language ext kind hl hkind ha1 ha2 hb1 hb2
  refine ⟨rfl, ?_⟩
  intro heq
  rcases hkind with h | h | h
  all_goals subst h
  · rw [generate_filename_solution hl, generate_filename_solution hl] at heq
    exact filename_stem_inj ha1 ha2 hb1 hb2 (by exact Except.ok.injEq .. ▸ heq)
  · rw [generate_filename_thought, generate_filename_thought] at heq
    exact filename_stem_inj ha1 ha2 hb1 hb2 (by exact Except.ok.injEq .. ▸ heq)
  · rw [generate_filename_link, generate_filename_link] at heq
    exact filename_stem_inj ha1 ha2 hb1 hb2 (by exact Except.ok.injEq .. ▸ heq)

/-- C4 (witness): the amended claim applied to two concrete problems
with underscore-free identifiers and equal filenames. -/
theorem C4_witness :
    pyLower cfProblem.platform = pyLower cfProblem.platform
    ∧ pyLower cfProblem.contest_code = pyLower cfProblem.contest_code
    ∧ cfProblem.problem_code = cfProblem.problem_code :=
  (C4_amended cfProblem cfProblem (chars "C++") (chars ".cpp")
    (chars "solution") rfl (Or.inl rfl) (by decide) (by decide) (by decide)
    (by decide)).2 rfl

/-- C7: if the chosen platform is supported but its pattern does not
match the URL, extraction fails precisely with the extraction error
carrying the offending URL (never any other error kind), and the session
aborts with the state untouched: no artifact file written, no daily-log
block appended, no catalog row inserted. -/
theorem C7_thm :
    ∀ (platform link : List Char)
      (f : List Char → Option (List Char × List Char)),
      platformExtractFn platform = some f → f link = none →
      extract_codes_from_link link platform
        = .error (.extractionError link)
      ∧ ∀ language difficulty tags now editor s0,
          runModel platform language link difficulty tags now editor s0
            = (.raised (.extractionError link), s0) := by
  intro platform link f hf hnone
  have hext : extract_codes_from_link link platform
      = .error (.extractionError link) := by
    rw [extract_eq_of_fn hf, hnone]
  refine ⟨hext, ?_⟩
  intro language difficulty tags now editor s0
  unfold runModel
  rw [hext]

/-- C7 (witness): the claim applied at platform Codeforces and a URL
its pattern does not match. -/
theorem C7_witness :
    extract_codes_from_link (chars "https://example.com/x")
        (chars "Codeforces")
      = .error (.extractionError (chars "https://example.com/x"))
    ∧ runModel (chars "Codeforces") (chars "Python")
        (chars "https://example.com/x") [] []
        ⟨chars "t", chars "t", chars "t"⟩ .launched emptyState
      = (.raised (.extractionError (chars "https://example.com/x")),
        emptyState) :=
  ⟨(C7_thm (chars "Codeforces") (chars "https://example.com/x")
      codeforcesExtract rfl rfl).1,
   (C7_thm (chars "Codeforces") (chars "https://example.com/x")
      codeforcesExtract rfl rfl).2 (chars "Python") [] []
      ⟨chars "t", chars "t", chars "t"⟩ .launched emptyState⟩

/-- C10: the contest id "unknown" is reachable from a well-formed
Codeforces URL whose contest segment is the word "unknown", and whenever
extraction returns it the session takes the second, silent exit: it
returns without raising, with no artifact file written and no ledger
entry added. -/
theorem C10_thm :
    (extract_codes_from_link
        (chars "https://codeforces.com/contest/unknown/problem/A")
        (chars "Codeforces")
      = .ok (chars "unknown", chars "A"))
    ∧ ∀ platform language link difficulty tags now editor s0 pid,
        extract_codes_from_link link platform = .ok (chars "unknown", pid) →
        runModel platform language link difficulty tags now editor s0
          = (.silentExit, s0) := by
  refine ⟨rfl, ?_⟩
  intro platform language link difficulty tags now editor s0 pid hext
  unfold runModel
  rw [hext]
  simp

/-- C10 (witness): the silent exit at the concrete "unknown" URL. -/
theorem C10_witness :
    runModel (chars "Codeforces") (chars "Python")
        (chars "https://codeforces.com/contest/unknown/problem/A") [] []
        ⟨chars "t", chars "t", chars "t"⟩ .launched emptyState
      = (.silentExit, emptyState) :=
  C10_thm.2 (chars "Codeforces") (chars "Python")
    (chars "https://codeforces.com/contest/unknown/problem/A") [] []
    ⟨chars "t", chars "t", chars "t"⟩ .launched emptyState (chars "A")
    C10_thm.1

/-- C5 (counterexample): when the editor command is absent,
`subprocess.run` raises `FileNotFoundError`, which the handler (it
catches only `CalledProcessError`) does not intercept: the session ends
with an uncaught error instead of completing — though the three written
files remain, nothing being rolled back. -/
theorem C5_counterexample :
    (runModel (chars "Codeforces") (chars "Python")
        (chars "https://codeforces.com/contest/1500/problem/C") [] []
        ⟨chars "t1", chars "t2", chars "t3"⟩ .missing emptyState).1
      = .raised .fileNotFound
    ∧ decide (RunResult.raised PyErr.fileNotFound = RunResult.completed) = false
    ∧ (runModel (chars "Codeforces") (chars "Python")
        (chars "https://codeforces.com/contest/1500/problem/C") [] []
        ⟨chars "t1", chars "t2", chars "t3"⟩ .missing emptyState).2.files.length
      = 3 :=
  ⟨rfl, by decide, rfl⟩

/-- C5 (amended): the editor-launch step is non-fatal only when the
editor command exists and exits non-zero (`CalledProcessError` is the
one exception the handler catches): in that mode the session completes
with the same final state as a successful launch, all three artifact
writes and both ledger entries in place.  When the editor command is
absent, the `FileNotFoundError` propagates uncaught and the session
fails — still without rolling back any prior step: the final state is
identical to the caught-failure one. -/
theorem C5_amended :
    ∀ (platform language link difficulty : List Char)
      (tags : List (List Char)) (now : NowStrings) (s0 : WorldState)
      (cc pc ext : List Char),
      extract_codes_from_link link platform = .ok (cc, pc) →
      ¬ cc = chars "unknown" →
      lookupAssoc LANGUAGES language = some ext →
      ((runModel platform language link difficulty tags now .exitNonzero s0).1
          = .completed
       ∧ (runModel platform language link difficulty tags now .exitNonzero s0).2
          = (runModel platform language link difficulty tags now .launched s0).2
       ∧ (runModel platform language link difficulty tags now .missing s0).1
          = .raised .fileNotFound
       ∧ (runModel platform language link difficulty tags now .missing s0).2
          = (runModel platform language link difficulty tags now .exitNonzero s0).2
       ∧ (runModel platform language link difficulty tags now .exitNonzero s0).2.files.length
          = s0.files.length + 3
       ∧ (runModel platform language link difficulty tags now .exitNonzero s0).2.logEntries.length
          = s0.logEntries.length + 1
       ∧ (runModel platform language link difficulty tags now .exitNonzero s0).2.dbRows.length
          = s0.dbRows.length + 1) := by
  intro platform language link difficulty tags now s0 cc pc ext hext hcc hl
  unfold runModel
  rw [hext]
  simp only [if_neg hcc, create_problem_files_ok hl, open_vscode]
  simp

/-- C5 (witness): the amended claim applied at a concrete successful
session. -/
theorem C5_witness :
    (runModel (chars "Codeforces") (chars "Python")
        (chars "https://codeforces.com/contest/1500/problem/C") [] []
        ⟨chars "t1", chars "t2", chars "t3"⟩ .exitNonzero emptyState).1
      = .completed
    ∧ (runModel (chars "Codeforces") (chars "Python")
        (chars "https://codeforces.com/contest/1500/problem/C") [] []
        ⟨chars "t1", chars "t2", chars "t3"⟩ .missing emptyState).1
      = .raised .fileNotFound :=
  ⟨(C5_amended (chars "Codeforces") (chars "Python")
      (chars "https://codeforces.com/contest/1500/problem/C") [] []
      ⟨chars "t1", chars "t2", chars "t3"⟩ emptyState (chars "1500")
      (chars "C") (chars ".py") rfl (by decide) rfl).1,
   (C5_amended (chars "Codeforces") (chars "Python")
      (chars "https://codeforces.com/contest/1500/problem/C") [] []
      ⟨chars "t1", chars "t2", chars "t3"⟩ emptyState (chars "1500")
      (chars "C") (chars ".py") rfl (by decide) rfl).2.2.1⟩
